import Mathlib

/-!
Verification development for the arXiv research hub client core:
query construction (buildArxivQuery / getCacheKey), Atom feed parsing
(parseArxivFeed) and the fetch orchestration with its 10-minute cache
(fetchPapers).  The TypeScript sources in src/lib are shallowly embedded:
strings are Lean strings, JavaScript numbers used as timestamps and
counters are Nat, the DOM document produced by DOMParser is an explicit
tree type, and the single network interaction of one fetchPapers call is
an explicit event value.
-/

namespace Arxiv

/-! ## Generic string machinery (JavaScript string primitives) -/

/-- Boolean test: the first list is an initial segment of the second. -/
def hasPre : List Char → List Char → Bool
  | [], _ => true
  | _ :: _, [] => false
  | a :: as, b :: bs => a == b && hasPre as bs

/-- JavaScript String.includes on explicit character lists. -/
def listIncl : List Char → List Char → Bool
  | [], pat => hasPre pat []
  | c :: t, pat => hasPre pat (c :: t) || listIncl t pat

/-- JavaScript s.includes(pat). -/
def includesStr (s pat : String) : Bool :=
  listIncl s.data pat.data

/-- JavaScript String.replace with a plain string pattern replaces only the
first occurrence; list-level worker. -/
def replaceFirstL (s pat rep : List Char) : List Char :=
  match s with
  | [] => if hasPre pat [] then rep else []
  | c :: t =>
    if hasPre pat (c :: t) then rep ++ (c :: t).drop pat.length
    else c :: replaceFirstL t pat rep

/-- JavaScript s.replace(pat, rep) for plain-string patterns (first
occurrence only, no dollar escapes occur in the sources). -/
def replaceFirst (s pat rep : String) : String :=
  ⟨replaceFirstL s.data pat.data rep.data⟩

/-- Boolean suffix test on strings. -/
def endsWithStr (s suf : String) : Bool :=
  hasPre suf.data.reverse s.data.reverse

/-- Uppercase hexadecimal digit for a nibble value. -/
def hexDigit (n : Nat) : Char :=
  Char.ofNat (if n < 10 then 48 + n else if n < 16 then 55 + n else 48)

/-- Percent-encoding of one byte value, uppercase hex as produced both by
encodeURIComponent and by URLSearchParams serialization. -/
def percentTriple (b : Nat) : List Char :=
  ['%', hexDigit (b / 16 % 16), hexDigit (b % 16)]

/-- UTF-8 encoding of one scalar value, as a list of byte values. -/
def utf8EncodeChar (c : Char) : List Nat :=
  let n := c.toNat
  if n < 128 then [n]
  else if n < 2048 then [192 + n / 64, 128 + n % 64]
  else if n < 65536 then [224 + n / 4096, 128 + n / 64 % 64, 128 + n % 64]
  else [240 + n / 262144, 128 + n / 4096 % 64, 128 + n / 64 % 64, 128 + n % 64]

/-- UTF-8 byte sequence of a string. -/
def utf8Bytes (s : String) : List Nat :=
  s.data.flatMap utf8EncodeChar

/-- The bytes left intact by encodeURIComponent: ASCII alphanumerics and
- _ . ! ~ * ( ) and the apostrophe (byte 39). -/
def isUnreservedByte (b : Nat) : Bool :=
  decide ((48 ≤ b ∧ b ≤ 57) ∨ (65 ≤ b ∧ b ≤ 90) ∨ (97 ≤ b ∧ b ≤ 122)) ||
    b == 45 || b == 95 || b == 46 || b == 33 || b == 126 || b == 42 ||
    b == 39 || b == 40 || b == 41

/-- Encoding of one byte under encodeURIComponent. -/
def encodeByte (b : Nat) : List Char :=
  if isUnreservedByte b then [Char.ofNat b] else percentTriple b

/-- JavaScript encodeURIComponent: UTF-8 bytes, unreserved bytes kept,
every other byte percent-encoded. -/
def encodeURIComponent (s : String) : String :=
  ⟨(utf8Bytes s).flatMap encodeByte⟩

/-- The bytes kept verbatim by URLSearchParams serialization:
ASCII alphanumerics and * - . _ . -/
def isFormSafeByte (b : Nat) : Bool :=
  decide ((48 ≤ b ∧ b ≤ 57) ∨ (65 ≤ b ∧ b ≤ 90) ∨ (97 ≤ b ∧ b ≤ 122)) ||
    b == 42 || b == 45 || b == 46 || b == 95

/-- Encoding of one byte under URLSearchParams serialization: space
becomes a plus sign, safe bytes stay, the rest is percent-encoded. -/
def formEncodeByte (b : Nat) : List Char :=
  if b == 32 then ['+']
  else if isFormSafeByte b then [Char.ofNat b]
  else percentTriple b

/-- application/x-www-form-urlencoded serialization of one value, as
performed by URLSearchParams when the URL is stringified. -/
def formUrlEncode (s : String) : String :=
  ⟨(utf8Bytes s).flatMap formEncodeByte⟩

/-- JavaScript kw.replace of every double quote by a backslash-escaped
double quote (a global regex replace in the source). -/
def escapeQuotes (s : String) : String :=
  ⟨s.data.flatMap fun c => if c == '"' then ['\\', '"'] else [c]⟩

/-- JavaScript String.trim: whitespace stripped from both ends,
computed on the character list. -/
def trimStr (s : String) : String :=
  ⟨((s.data.dropWhile Char.isWhitespace).reverse.dropWhile Char.isWhitespace).reverse⟩

/-- Truthiness of an optional JavaScript string: present and non-empty. -/
def strTruthy (o : Option String) : Bool :=
  match o with
  | none => false
  | some s => !(s == "")

/-! ## Data model (src/lib/types.ts) -/

/-- One topic registry entry: display label and arXiv category code. -/
structure TopicInfo where
  label : String
  category : String
  deriving Repr, DecidableEq

/-- The TOPICS registry: fixed mapping from topic key to label and
category, from src/lib/types.ts. -/
def TOPICS : List (String × TopicInfo) :=
  [("llm-nlp", ⟨"LLMs & NLP", "cs.CL"⟩),
   ("computer-vision", ⟨"Computer Vision", "cs.CV"⟩),
   ("multimodal", ⟨"Multimodal", "cs.MM"⟩),
   ("robotics-rl", ⟨"Robotics & RL", "cs.RO"⟩),
   ("ir-rag", ⟨"IR/RAG", "cs.IR"⟩),
   ("speech-audio", ⟨"Speech/Audio", "eess.AS"⟩),
   ("safety-evals", ⟨"Safety/Evals", "cs.AI"⟩),
   ("ml-systems", ⟨"ML Systems", "cs.DC"⟩)]

/-- QueryParams of types.ts.  Optional fields are Option; the source
fields named from and to are called fromDate and toDate here because
from is reserved in Lean.  topic is a plain string at runtime (the
legacy wrapper casts arbitrary strings into it), page and pageSize are
page index and page size. -/
structure QueryParams where
  topic : Option String := none
  mode : Option String := none
  search : Option String := none
  keywords : Option (List String) := none
  fromDate : Option String := none
  toDate : Option String := none
  page : Option Nat := none
  pageSize : Option Nat := none
  deriving Repr, DecidableEq

/-- Link bundle of a paper record. -/
structure Links where
  abs : String
  pdf : String
  html : String
  deriving Repr, DecidableEq

/-- ArxivPaper record of types.ts. -/
structure ArxivPaper where
  id : String
  title : String
  summary : String
  authors : List String
  published : String
  categories : List String
  links : Links
  deriving Repr, DecidableEq

/-- PapersResponse record of types.ts. -/
structure PapersResponse where
  papers : List ArxivPaper
  totalResults : Nat
  deriving Repr, DecidableEq

/-- APIError of types.ts: message plus optional numeric status. -/
structure APIError where
  message : String
  status : Option Nat
  deriving Repr, DecidableEq

/-! ## Query construction (src/lib/queryBuilder.ts) -/

/-- Lookup of a topic key in the TOPICS registry. -/
def findTopic (k : String) : Option (String × TopicInfo) :=
  TOPICS.find? fun x => x.1 == k

/-- The category of a registered topic key, empty for unknown keys. -/
def topicCategory (k : String) : String :=
  ((findTopic k).map fun x => x.2.category).getD ""

/-- The category part of searchQuery, lines 101-111 of queryBuilder.ts:
full-text clause for a truthy search, cat clause for a registered topic,
else the fixed default disjunction. -/
def categoryPart (p : QueryParams) : String :=
  if strTruthy p.search then
    "all:" ++ encodeURIComponent (p.search.getD "")
  else if strTruthy p.topic && (findTopic (p.topic.getD "")).isSome then
    "cat:" ++ topicCategory (p.topic.getD "")
  else
    "cat:cs.AI OR cat:cs.LG OR cat:cs.CL OR cat:cs.CV"

/-- The date-range clause, lines 113-116 of queryBuilder.ts; the plus
signs are the URL-level encoding of spaces in the arXiv query syntax. -/
def dateClause (p : QueryParams) : String :=
  if strTruthy p.fromDate && strTruthy p.toDate then
    "+AND+submittedDate:[" ++ p.fromDate.getD "" ++ "+TO+" ++ p.toDate.getD "" ++ "]"
  else ""

/-- One keyword rendered for the all clause: double-quoted with internal
double quotes backslash-escaped. -/
def quoteKeyword (kw : String) : String :=
  "\"" ++ escapeQuotes kw ++ "\""

/-- The keyword clause, lines 118-124 of queryBuilder.ts. -/
def keywordClause (p : QueryParams) : String :=
  let kws := p.keywords.getD []
  if 0 < kws.length then
    "+AND+all:(" ++ String.intercalate "+OR+" (kws.map quoteKeyword) ++ ")"
  else ""

/-- The searchQuery variable of buildArxivQuery after line 124: category
part, then optional date clause, then optional keyword clause. -/
def buildSearchQuery (p : QueryParams) : String :=
  categoryPart p ++ dateClause p ++ keywordClause p

/-- buildArxivQuery of queryBuilder.ts: the full query URL, with the
query parameters serialized by URLSearchParams in insertion order. -/
def buildArxivQuery (p : QueryParams) : String :=
  let searchQuery := buildSearchQuery p
  let page := p.page.getD 0
  let pageSize := p.pageSize.getD 20
  let mode := p.mode.getD "latest"
  "http://export.arxiv.org/api/query?search_query=" ++ formUrlEncode searchQuery ++
    "&start=" ++ formUrlEncode (Nat.repr (page * pageSize)) ++
    "&max_results=" ++ formUrlEncode (Nat.repr pageSize) ++
    "&sortBy=" ++ (if mode == "relevance" then "relevance" else "submittedDate") ++
    "&sortOrder=descending"

/-- getCacheKey of queryBuilder.ts: the seven defaulted fields joined
with a hyphen. -/
def getCacheKey (p : QueryParams) : String :=
  String.intercalate "-"
    [p.topic.getD "", p.mode.getD "latest", p.search.getD "",
     String.intercalate "," (p.keywords.getD []),
     p.fromDate.getD "", p.toDate.getD "", Nat.repr (p.page.getD 0)]

/-! ## DOM model for the parsed Atom feed

DOMParser is a browser facility, not repository code; its output is
modelled as an explicit tree of element and text nodes.  Selection and
text extraction below follow DOM semantics restricted to the subtree at
hand: querySelectorAll on an element scans its descendants in tree
order, querySelectorAll on a document scans all elements of the
document, and textContent concatenates all descendant text. -/

/-- One DOM node: an element with tag, attributes and children, or text. -/
inductive XNode where
  | elem (tag : String) (attrs : List (String × String)) (children : List XNode)
  | text (content : String)

/-- A parsed document: the list of root nodes produced by DOMParser. -/
structure XDoc where
  roots : List XNode

mutual

/-- textContent of a node: its text, or the concatenation of the text of
its children. -/
def textContent : XNode → String
  | .text s => s
  | .elem _ _ ch => textContentList ch

/-- textContent concatenated over a list of nodes. -/
def textContentList : List XNode → String
  | [] => ""
  | n :: ns => textContent n ++ textContentList ns

end

mutual

/-- All elements with the given tag in the subtree rooted at a node, in
tree order, the node itself included when it matches. -/
def selectAll (tag : String) : XNode → List XNode
  | .text _ => []
  | .elem t a ch =>
    (if t == tag then [XNode.elem t a ch] else []) ++ selectAllList tag ch

/-- selectAll concatenated over a list of nodes. -/
def selectAllList (tag : String) : List XNode → List XNode
  | [] => []
  | n :: ns => selectAll tag n ++ selectAllList tag ns

end

mutual

/-- All name elements that have an author element among their ancestors
within the scanned subtree, in tree order: the descendant combinator of
the author name selector used for authors. -/
def authorNameElems (inAuthor : Bool) : XNode → List XNode
  | .text _ => []
  | .elem t a ch =>
    (if inAuthor && t == "name" then [XNode.elem t a ch] else []) ++
      authorNameElemsList (inAuthor || t == "author") ch

/-- authorNameElems concatenated over a list of nodes. -/
def authorNameElemsList (inAuthor : Bool) : List XNode → List XNode
  | [] => []
  | n :: ns => authorNameElems inAuthor n ++ authorNameElemsList inAuthor ns

end

/-- getAttribute on an element node; none for absent attributes and for
text nodes. -/
def getAttr (n : XNode) (name : String) : Option String :=
  match n with
  | .elem _ attrs _ => (attrs.find? fun p => p.1 == name).map fun p => p.2
  | .text _ => none

/-- querySelector with a plain tag selector on an element: first matching
descendant in tree order. -/
def qSelFirst (tag : String) (n : XNode) : Option XNode :=
  match n with
  | .elem _ _ ch => (selectAllList tag ch).head?
  | .text _ => none

/-- Children of an element node. -/
def childrenOf : XNode → List XNode
  | .elem _ _ ch => ch
  | .text _ => []

/-! ## Feed parsing (parseArxivFeed, src/lib/api.ts lines 62-127) -/

/-- Trimmed text of the first descendant with the given tag, empty when
absent: the querySelector-textContent-trim-or-empty idiom of lines 71-74. -/
def entryField (tag : String) (e : XNode) : String :=
  ((qSelFirst tag e).map fun n => trimStr (textContent n)).getD ""

/-- The id field of an entry. -/
def entryId (e : XNode) : String := entryField "id" e

/-- The title field of an entry. -/
def entryTitle (e : XNode) : String := entryField "title" e

/-- The summary field of an entry. -/
def entrySummary (e : XNode) : String := entryField "summary" e

/-- The published field of an entry. -/
def entryPublished (e : XNode) : String := entryField "published" e

/-- Author names of an entry, lines 76-80: trimmed textContent of every
author name element, empty names skipped. -/
def authorsOf (e : XNode) : List String :=
  ((authorNameElemsList false (childrenOf e)).map fun n => trimStr (textContent n)).filter
    fun s => !(s == "")

/-- Category codes of an entry, lines 82-86: the term attribute of every
category element, absent or empty terms skipped. -/
def categoriesOf (e : XNode) : List String :=
  (selectAllList "category" (childrenOf e)).filterMap fun c =>
    match getAttr c "term" with
    | some term => if term == "" then none else some term
    | none => none

/-- One step of the link loop of lines 88-98: a link titled pdf sets the
pdf slot, otherwise a link whose href contains the abs path segment sets
the abs slot. -/
def linkStep (links : Links) (l : XNode) : Links :=
  let href := (getAttr l "href").getD ""
  let ltitle := (getAttr l "title").getD ""
  if ltitle == "pdf" then { links with pdf := href }
  else if includesStr href "/abs/" then { links with abs := href }
  else links

/-- The link slots after the loop over all link elements of an entry. -/
def rawLinks (e : XNode) : Links :=
  (selectAllList "link" (childrenOf e)).foldl linkStep ⟨"", "", ""⟩

/-- The abs slot after the fallback of lines 100-102: derived from a
non-empty id when no link element supplied it. -/
def absDerived (e : XNode) : String :=
  if (rawLinks e).abs == "" && !(entryId e == "") then
    replaceFirst (entryId e) "/api/" "/abs/"
  else (rawLinks e).abs

/-- The pdf slot after the fallback of lines 103-105: derived from the
abs slot when no link element supplied it. -/
def pdfDerived (e : XNode) : String :=
  if (rawLinks e).pdf == "" && !(absDerived e == "") then
    replaceFirst (absDerived e) "/abs/" "/pdf/" ++ ".pdf"
  else (rawLinks e).pdf

/-- The html slot after the fallback of lines 106-108: derived from the
abs slot (the link loop never fills the html slot, so its first
condition always holds). -/
def htmlDerived (e : XNode) : String :=
  if (rawLinks e).html == "" && !(absDerived e == "") then
    replaceFirst (absDerived e) "/abs/" "/html/"
  else (rawLinks e).html

/-- The link slots after the fallback derivations of lines 100-108. -/
def linksOf (e : XNode) : Links :=
  ⟨absDerived e, pdfDerived e, htmlDerived e⟩

/-- The paper record assembled from one entry, lines 111-119. -/
def mkPaper (e : XNode) : ArxivPaper :=
  ⟨entryId e, entryTitle e, entrySummary e, authorsOf e, entryPublished e,
   categoriesOf e, linksOf e⟩

/-- The validity test of line 110: truthy title and summary and at least
one author. -/
def validEntry (e : XNode) : Bool :=
  !(entryTitle e == "") && !(entrySummary e == "") && 0 < (authorsOf e).length

/-- parseArxivFeed on the parsed document: every entry element in tree
order is inspected and pushed onto the output when valid, mirroring the
forEach-push loop of lines 69-124.  Field extraction is total here, so
the defensive per-entry try-catch of the source has no failing case to
model. -/
def parseArxivFeed (doc : XDoc) : List ArxivPaper :=
  let entries := selectAllList "entry" doc.roots
  entries.foldl (fun acc e => if validEntry e then acc ++ [mkPaper e] else acc) []

/-! ## Fetch orchestration and cache (src/lib/api.ts) -/

/-- Cache time-to-live in milliseconds: 10 minutes. -/
def CACHE_DURATION : Nat := 10 * 60 * 1000

/-- CacheEntry of api.ts: response data plus storage timestamp. -/
structure CacheEntry where
  data : PapersResponse
  timestamp : Nat
  deriving Repr, DecidableEq

/-- The in-memory cache: key-value pairs in insertion order. -/
def CacheMap : Type := List (String × CacheEntry)

/-- Map.get: the value stored for a key. -/
def mapGet (m : CacheMap) (k : String) : Option CacheEntry :=
  match m with
  | [] => none
  | (k2, v) :: t => if k2 == k then some v else mapGet t k

/-- Map.set: overwrite the value in place or append a new pair. -/
def mapSet (m : CacheMap) (k : String) (v : CacheEntry) : CacheMap :=
  match m with
  | [] => [(k, v)]
  | (k2, v2) :: t => if k2 == k then (k, v) :: t else (k2, v2) :: mapSet t k v

/-- isValidCache of api.ts lines 40-42, with the Date.now() reading
passed in: the entry age is below the 10-minute threshold. -/
def isValidCache (now : Nat) (entry : CacheEntry) : Bool :=
  now - entry.timestamp < CACHE_DURATION

/-- response.ok of the fetch API: status in the 200-299 range. -/
def respOk (status : Nat) : Bool :=
  decide (200 ≤ status ∧ status < 300)

/-- A JavaScript exception value as seen by the catch block: whether it
is an Error instance, its message, and its status property when one
exists. -/
structure JsException where
  isError : Bool
  message : String
  statusField : Option Nat
  deriving Repr, DecidableEq

/-- The catch block of api.ts lines 198-204: message from the Error or
the generic connectivity text, status from the status property of an
Error carrying one, undefined otherwise. -/
def normalizeError (e : JsException) : APIError :=
  ⟨if e.isError then e.message
   else "Network error occurred. Please check your connection and try again.",
   if e.isError then e.statusField else none⟩

/-- The Error thrown at line 178 for a non-success HTTP response: a bare
Error instance with the status code and reason phrase in its message and
no status property. -/
def httpStatusError (status : Nat) (statusText : String) : JsException :=
  ⟨true, "ArXiv API returned " ++ Nat.repr status ++ ": " ++ statusText, none⟩

/-- Outcome of reading the response body: its text, or the exception the
read rejected with. -/
inductive BodyOutcome where
  | ok (text : String)
  | threw (t : JsException)
  deriving Repr, DecidableEq

/-- The network interaction of one fetchPapers call: either fetch itself
rejected, or a response arrived with a status, a reason phrase and a
body outcome. -/
inductive HttpEvent where
  | transportError (t : JsException)
  | response (status : Nat) (statusText : String) (body : BodyOutcome)
  deriving Repr, DecidableEq

/-- Result of one fetchPapers call: the settled promise, the cache after
the call, and the URL of the network request when one was issued. -/
structure FetchOutput where
  outcome : Except APIError PapersResponse
  cache : CacheMap
  requested : Option String

/-- The scan for the totalResults metadata element, api.ts line 184: at
one position, match the opening tag text, anything up to the closing
angle bracket, a non-empty digit run, then the closing tag. -/
def matchTotalAt (cs : List Char) : Option Nat :=
  let openTag := "<opensearch:totalResults".data
  if hasPre openTag cs then
    let rest := cs.drop openTag.length
    match rest.dropWhile (fun c => !(c == '>')) with
    | [] => none
    | _ :: afterGt =>
      let ds := afterGt.takeWhile Char.isDigit
      if ds.isEmpty then none
      else if hasPre "</opensearch:totalResults>".data (afterGt.drop ds.length) then
        some (ds.foldl (fun a c => a * 10 + (c.toNat - 48)) 0)
      else none
  else none

/-- Leftmost match of the totalResults pattern in the body text. -/
def scanTotal : List Char → Option Nat
  | [] => none
  | c :: t =>
    match matchTotalAt (c :: t) with
    | some n => some n
    | none => scanTotal t

/-- The totalResults extraction of api.ts lines 184-185 before the
fallback to the parsed paper count. -/
def extractTotalResults (xmlText : String) : Option Nat :=
  scanTotal xmlText.data

/-- The try block of fetchPapers after a cache miss, lines 168-204:
build the URL, fetch, fail on a non-success status, read and parse the
body, extract the total, store the cache entry, with every exception
normalized by the catch block. -/
def fetchFromNetwork (domParse : String → XDoc) (params : QueryParams)
    (c : CacheMap) (now : Nat) (ev : HttpEvent) (cacheKey : String) : FetchOutput :=
  let arxivUrl := buildArxivQuery params
  match ev with
  | .transportError t => ⟨.error (normalizeError t), c, some arxivUrl⟩
  | .response status statusText body =>
    if !respOk status then
      ⟨.error (normalizeError (httpStatusError status statusText)), c, some arxivUrl⟩
    else
      match body with
      | .threw t => ⟨.error (normalizeError t), c, some arxivUrl⟩
      | .ok xmlText =>
        let papers := parseArxivFeed (domParse xmlText)
        let totalResults := (extractTotalResults xmlText).getD papers.length
        let result : PapersResponse := ⟨papers, totalResults⟩
        ⟨.ok result, mapSet c cacheKey ⟨result, now⟩, some arxivUrl⟩

/-- fetchPapers of api.ts lines 160-205, with the environment passed
explicitly: the DOM parser, the cache contents, the Date.now() reading
and the network interaction.  A cache entry below the age threshold is
returned with no network request; otherwise the network path runs. -/
def fetchPapers (domParse : String → XDoc) (params : QueryParams)
    (c : CacheMap) (now : Nat) (ev : HttpEvent) : FetchOutput :=
  match mapGet c (getCacheKey params) with
  | some entry =>
    if isValidCache now entry then ⟨.ok entry.data, c, none⟩
    else fetchFromNetwork domParse params c now ev (getCacheKey params)
  | none => fetchFromNetwork domParse params c now ev (getCacheKey params)

/-- The environmental fact used by the status-field analysis: fetch and
response.text reject with TypeError, AbortError or similar platform
error values, none of which carries a status property. -/
def evBenign : HttpEvent → Prop
  | .transportError t => t.statusField = none
  | .response _ _ (.threw t) => t.statusField = none
  | .response _ _ (.ok _) => True

/-! ## Substring lemmas -/

theorem hasPre_append_self (p r : List Char) : hasPre p (p ++ r) = true := by
  induction p with
  | nil => rfl
  | cons a as ih => simp [hasPre, ih]

theorem listIncl_of_hasPre {s pat : List Char} (h : hasPre pat s = true) :
    listIncl s pat = true := by
  cases s with
  | nil => exact h
  | cons c t => simp [listIncl, h]

theorem listIncl_append_right (s : List Char) {t pat : List Char}
    (h : listIncl t pat = true) : listIncl (s ++ t) pat = true := by
  induction s with
  | nil => exact h
  | cons a as ih => simp [listIncl, ih]

theorem listIncl_mid (x pat r : List Char) : listIncl (x ++ (pat ++ r)) pat = true :=
  listIncl_append_right x (listIncl_of_hasPre (hasPre_append_self pat r))

theorem includesStr_mid2 (x pat z : String) : includesStr (x ++ (pat ++ z)) pat = true := by
  unfold includesStr
  rw [String.data_append, String.data_append]
  exact listIncl_mid x.data pat.data z.data

theorem includesStr_end (x pat : String) : includesStr (x ++ pat) pat = true := by
  unfold includesStr
  rw [String.data_append]
  have h := listIncl_mid x.data pat.data []
  rwa [List.append_nil] at h

/-! ## Colon-freeness of percent-encoded text -/

theorem charOfNat_toNat {b : Nat} (h : b < 55296) : (Char.ofNat b).toNat = b := by
  have hv : Nat.isValidChar b := Or.inl h
  rw [Char.ofNat, dif_pos hv]
  simp [Char.ofNatAux, Char.toNat, UInt32.toNat, BitVec.toNat_ofNatLt]

theorem char_ofNat_ne_colon {b : Nat} (hb : b < 55296) (hne : b ≠ 58) :
    Char.ofNat b ≠ ':' := by
  intro h
  apply hne
  have h2 := congrArg Char.toNat h
  rwa [charOfNat_toNat hb] at h2

theorem hexDigit_ne_colon (n : Nat) : hexDigit n ≠ ':' := by
  unfold hexDigit
  split_ifs with h1 h2
  · exact char_ofNat_ne_colon (by omega) (by omega)
  · exact char_ofNat_ne_colon (by omega) (by omega)
  · exact char_ofNat_ne_colon (by omega) (by omega)

theorem isUnreservedByte_bounds {b : Nat} (h : isUnreservedByte b = true) :
    b < 55296 ∧ b ≠ 58 := by
  simp only [isUnreservedByte, Bool.or_eq_true, decide_eq_true_eq, beq_iff_eq] at h
  omega

theorem encodeByte_ne_colon (b : Nat) : ∀ c ∈ encodeByte b, c ≠ ':' := by
  intro c hc
  unfold encodeByte at hc
  by_cases h : isUnreservedByte b = true
  · rw [if_pos h] at hc
    simp only [List.mem_singleton] at hc
    subst hc
    exact char_ofNat_ne_colon (isUnreservedByte_bounds h).1 (isUnreservedByte_bounds h).2
  · rw [if_neg h] at hc
    unfold percentTriple at hc
    simp only [List.mem_cons, List.mem_singleton, List.not_mem_nil, or_false] at hc
    rcases hc with hc | hc | hc
    · subst hc; decide
    · subst hc; exact hexDigit_ne_colon _
    · subst hc; exact hexDigit_ne_colon _

theorem encodeURIComponent_ne_colon (s : String) :
    ∀ c ∈ (encodeURIComponent s).data, c ≠ ':' := by
  intro c hc
  have hd : (encodeURIComponent s).data = (utf8Bytes s).flatMap encodeByte := rfl
  rw [hd, List.mem_flatMap] at hc
  obtain ⟨b, -, hcb⟩ := hc
  exact encodeByte_ne_colon b c hcb

theorem hasPre_cat_colon_mem : ∀ s : List Char,
    hasPre ['c', 'a', 't', ':'] s = true → ':' ∈ s := by
  intro s h
  match s with
  | [] => simp [hasPre] at h
  | [a] => simp [hasPre] at h
  | [a, b] => simp [hasPre] at h
  | [a, b, c2] => simp [hasPre] at h
  | a :: b :: c2 :: d :: t =>
    simp only [hasPre, Bool.and_eq_true, beq_iff_eq] at h
    obtain ⟨-, -, -, hd, -⟩ := h
    subst hd
    simp

theorem listIncl_cat_of_no_colon : ∀ s : List Char,
    (∀ c ∈ s, c ≠ ':') → listIncl s ['c', 'a', 't', ':'] = false := by
  intro s
  induction s with
  | nil => intro _; rfl
  | cons a t ih =>
    intro h
    have h1 : hasPre ['c', 'a', 't', ':'] (a :: t) = false := by
      cases hh : hasPre ['c', 'a', 't', ':'] (a :: t) with
      | false => rfl
      | true =>
        have hmem := hasPre_cat_colon_mem _ hh
        exact absurd rfl (h _ hmem)
    have h2 := ih fun c hc => h c (List.mem_cons_of_mem _ hc)
    simp [listIncl, h1, h2]

theorem includes_cat_false_of_no_colon (s : String) (hs : ∀ c ∈ s.data, c ≠ ':') :
    includesStr ("all:" ++ s) "cat:" = false := by
  unfold includesStr
  rw [String.data_append]
  show listIncl ('a' :: 'l' :: 'l' :: ':' :: s.data) ['c', 'a', 't', ':'] = false
  show listIncl s.data ['c', 'a', 't', ':'] = false
  exact listIncl_cat_of_no_colon s.data hs

/-! ## Claim C1: category expression selection -/

theorem findTopic_truthy {p : QueryParams}
    (h : (findTopic (p.topic.getD "")).isSome = true) : strTruthy p.topic = true := by
  cases htop : p.topic with
  | none => rw [htop] at h; simp [findTopic, TOPICS] at h
  | some s =>
    rw [htop] at h
    by_cases hs : s = ""
    · subst hs; simp [findTopic, TOPICS] at h
    · simp [strTruthy, hs]

/-- C1: the category expression of the built query is selected in
priority order: a truthy search yields the percent-encoded full-text
all clause and never a cat clause, a registered topic yields the cat
clause of its configured category, and otherwise the fixed default
disjunction is used. -/
theorem categoryPart_selection (p : QueryParams) :
    (strTruthy p.search = true →
      categoryPart p = "all:" ++ encodeURIComponent (p.search.getD "") ∧
      includesStr (categoryPart p) "cat:" = false) ∧
    (strTruthy p.search = false → (findTopic (p.topic.getD "")).isSome = true →
      categoryPart p = "cat:" ++ topicCategory (p.topic.getD "")) ∧
    (strTruthy p.search = false → (findTopic (p.topic.getD "")).isSome = false →
      categoryPart p = "cat:cs.AI OR cat:cs.LG OR cat:cs.CL OR cat:cs.CV") := by
  refine ⟨fun hs => ⟨?_, ?_⟩, fun hs ht => ?_, fun hs ht => ?_⟩
  · unfold categoryPart
    rw [hs]
    simp
  · unfold categoryPart
    rw [hs]
    simp only [if_true]
    exact includes_cat_false_of_no_colon _ (encodeURIComponent_ne_colon _)
  · unfold categoryPart
    rw [hs, findTopic_truthy ht, ht]
    simp
  · unfold categoryPart
    rw [hs, ht]
    simp

/-- Witness for C1: the three branches at concrete filters. -/
theorem categoryPart_selection_witness :
    categoryPart { search := some "transformers", topic := some "llm-nlp" } = "all:transformers" ∧
    includesStr (categoryPart { search := some "transformers", topic := some "llm-nlp" }) "cat:" = false ∧
    categoryPart { topic := some "computer-vision" } = "cat:cs.CV" ∧
    categoryPart { topic := some "unknown-topic" } =
      "cat:cs.AI OR cat:cs.LG OR cat:cs.CL OR cat:cs.CV" := by
  refine ⟨?_, ?_, ?_, ?_⟩
  · exact (((categoryPart_selection _).1 (by decide)).1).trans (by decide)
  · exact ((categoryPart_selection _).1 (by decide)).2
  · exact ((categoryPart_selection _).2.1 (by decide) (by decide)).trans (by decide)
  · exact (categoryPart_selection _).2.2 (by decide) (by decide)

/-! ## Claim C5: date-window clause -/

/-- C5: when both date bounds are present (truthy), the built
search_query splices the submittedDate range clause with the literal
values, conjoined to the category expression with AND; the plus signs
are the URL-level spelling of spaces in the arXiv query syntax, exactly
as the repository test suite expects them. -/
theorem buildSearchQuery_date_clause (p : QueryParams) (f t : String)
    (hf : p.fromDate = some f) (ht : p.toDate = some t)
    (hf0 : f ≠ "") (ht0 : t ≠ "") :
    buildSearchQuery p =
      categoryPart p ++ ("+AND+submittedDate:[" ++ f ++ "+TO+" ++ t ++ "]") ++ keywordClause p ∧
    includesStr (buildSearchQuery p) ("submittedDate:[" ++ f ++ "+TO+" ++ t ++ "]") = true := by
  have h1 : dateClause p = "+AND+submittedDate:[" ++ f ++ "+TO+" ++ t ++ "]" := by
    unfold dateClause
    rw [hf, ht]
    simp [strTruthy, hf0, ht0]
  have h2 : buildSearchQuery p =
      categoryPart p ++ ("+AND+submittedDate:[" ++ f ++ "+TO+" ++ t ++ "]") ++ keywordClause p := by
    unfold buildSearchQuery
    rw [h1]
  refine ⟨h2, ?_⟩
  have h3 : buildSearchQuery p =
      (categoryPart p ++ "+AND+") ++
        (("submittedDate:[" ++ f ++ "+TO+" ++ t ++ "]") ++ keywordClause p) := by
    apply String.ext
    rw [h2]
    simp [String.data_append, List.append_assoc, List.cons_append]
  rw [h3]
  exact includesStr_mid2 _ _ _

/-- Witness for C5 at a concrete filter. -/
theorem buildSearchQuery_date_clause_witness :
    buildSearchQuery { topic := some "computer-vision", fromDate := some "20240101", toDate := some "20240131" } =
      categoryPart { topic := some "computer-vision", fromDate := some "20240101", toDate := some "20240131" } ++
        ("+AND+submittedDate:[" ++ "20240101" ++ "+TO+" ++ "20240131" ++ "]") ++
        keywordClause { topic := some "computer-vision", fromDate := some "20240101", toDate := some "20240131" } ∧
    includesStr
      (buildSearchQuery { topic := some "computer-vision", fromDate := some "20240101", toDate := some "20240131" })
      ("submittedDate:[" ++ "20240101" ++ "+TO+" ++ "20240131" ++ "]") = true :=
  buildSearchQuery_date_clause _ "20240101" "20240131" rfl rfl (by decide) (by decide)

/-! ## Claim C6: keyword clause -/

/-- C6: a non-empty keyword list contributes a conjunctive all clause in
which every keyword is double-quoted with internal double quotes
backslash-escaped and the quoted keywords are OR-joined; the plus signs
are the URL-level spelling of spaces, as in the repository test suite. -/
theorem buildSearchQuery_keyword_clause (p : QueryParams) (ks : List String)
    (hk : p.keywords = some ks) (hne : ks ≠ []) :
    keywordClause p =
      "+AND+all:(" ++
        String.intercalate "+OR+" (ks.map fun kw => "\"" ++ escapeQuotes kw ++ "\"") ++ ")" ∧
    includesStr (buildSearchQuery p)
      ("all:(" ++
        String.intercalate "+OR+" (ks.map fun kw => "\"" ++ escapeQuotes kw ++ "\"") ++ ")") = true := by
  have hlen : 0 < ks.length := List.length_pos.mpr hne
  have h1 : keywordClause p =
      "+AND+all:(" ++
        String.intercalate "+OR+" (ks.map fun kw => "\"" ++ escapeQuotes kw ++ "\"") ++ ")" := by
    unfold keywordClause
    rw [hk]
    simp only [Option.getD_some, hlen, if_pos]
    rfl
  refine ⟨h1, ?_⟩
  have h2 : buildSearchQuery p =
      (categoryPart p ++ dateClause p ++ "+AND+") ++
        (("all:(" ++
          String.intercalate "+OR+" (ks.map fun kw => "\"" ++ escapeQuotes kw ++ "\"") ++ ")") ++ "") := by
    apply String.ext
    unfold buildSearchQuery
    rw [h1]
    simp [String.data_append, List.append_assoc, List.cons_append]
  rw [h2]
  exact includesStr_mid2 _ _ _

/-- Witness for C6 at the filter of the repository test suite. -/
theorem buildSearchQuery_keyword_clause_witness :
    keywordClause { topic := some "llm-nlp", keywords := some ["transformer", "attention"] } =
      "+AND+all:(" ++
        String.intercalate "+OR+"
          (["transformer", "attention"].map fun kw => "\"" ++ escapeQuotes kw ++ "\"") ++ ")" ∧
    includesStr (buildSearchQuery { topic := some "llm-nlp", keywords := some ["transformer", "attention"] })
      ("all:(" ++
        String.intercalate "+OR+"
          (["transformer", "attention"].map fun kw => "\"" ++ escapeQuotes kw ++ "\"") ++ ")") = true :=
  buildSearchQuery_keyword_clause _ ["transformer", "attention"] rfl (by decide)

/-! ## Claim C3: validity filter of the feed parser -/

theorem foldl_push_filter_map {α β : Type} (q : α → Bool) (g : α → β) :
    ∀ (l : List α) (acc : List β),
      l.foldl (fun a e => if q e then a ++ [g e] else a) acc = acc ++ (l.filter q).map g := by
  intro l
  induction l with
  | nil => intro acc; simp
  | cons x xs ih =>
    intro acc
    by_cases hq : q x
    · simp [List.foldl_cons, hq, ih, List.filter_cons]
    · simp [List.foldl_cons, hq, ih, List.filter_cons]

theorem validEntry_decide (e : XNode) :
    validEntry e = decide (entryTitle e ≠ "" ∧ entrySummary e ≠ "" ∧ authorsOf e ≠ []) := by
  unfold validEntry
  by_cases h1 : entryTitle e = "" <;> by_cases h2 : entrySummary e = "" <;>
    by_cases h3 : authorsOf e = [] <;>
      simp [h1, h2, h3, List.length_pos]

/-- C3: parseArxivFeed returns exactly the entry elements of the
document, in document order, whose trimmed title and trimmed summary are
non-empty and whose list of non-empty trimmed author names is non-empty,
each converted to its paper record; invalid entries are dropped while
every valid sibling is kept. -/
theorem parseArxivFeed_filter_spec (doc : XDoc) :
    parseArxivFeed doc =
      ((selectAllList "entry" doc.roots).filter fun e =>
        decide (entryTitle e ≠ "" ∧ entrySummary e ≠ "" ∧ authorsOf e ≠ [])).map mkPaper := by
  unfold parseArxivFeed
  rw [foldl_push_filter_map validEntry mkPaper _ []]
  rw [List.nil_append]
  congr 1
  apply List.filter_congr
  intro e _
  exact validEntry_decide e

/-! ## Claim C9: entry-less documents parse to the empty list -/

/-- C9: a parsed document with no entry elements, including the error
document DOMParser produces for text that is not XML at all, yields the
empty paper list, and the parse is a total function. -/
theorem parseArxivFeed_no_entries (doc : XDoc)
    (h : selectAllList "entry" doc.roots = []) : parseArxivFeed doc = [] := by
  unfold parseArxivFeed
  rw [h]
  rfl

/-- Witness for C9 at the error document a failed XML parse produces. -/
theorem parseArxivFeed_no_entries_witness :
    selectAllList "entry" [XNode.elem "parsererror" [] [XNode.text "XML parse failure"]] = [] ∧
    parseArxivFeed ⟨[XNode.elem "parsererror" [] [XNode.text "XML parse failure"]]⟩ = [] :=
  ⟨rfl, parseArxivFeed_no_entries _ rfl⟩

/-! ## Claim C4: link derivation fallbacks -/

theorem endsWithStr_append (s t : String) : endsWithStr (s ++ t) t = true := by
  unfold endsWithStr
  rw [String.data_append, List.reverse_append]
  exact hasPre_append_self _ _

theorem append_pdf_ne_empty (s : String) : s ++ ".pdf" ≠ "" := by
  intro h
  have h2 := congrArg String.data h
  rw [String.data_append] at h2
  simp [List.append_eq_nil] at h2

/-- C4: when no link element supplied an abstract link and the id is
non-empty, the abstract link is the id with the first /api/ segment
replaced by /abs/; when no link element supplied a PDF link and the
abstract link is non-empty, the PDF link is the abstract link with the
first /abs/ segment replaced by /pdf/ plus the .pdf suffix, hence ends
in .pdf and is non-empty. -/
theorem linksOf_derivation (e : XNode) :
    ((rawLinks e).abs = "" → entryId e ≠ "" →
      (linksOf e).abs = replaceFirst (entryId e) "/api/" "/abs/") ∧
    ((rawLinks e).pdf = "" → (linksOf e).abs ≠ "" →
      (linksOf e).pdf = replaceFirst (linksOf e).abs "/abs/" "/pdf/" ++ ".pdf" ∧
      endsWithStr (linksOf e).pdf ".pdf" = true ∧
      (linksOf e).pdf ≠ "") := by
  constructor
  · intro h1 h2
    show absDerived e = _
    unfold absDerived
    simp [h1, h2]
  · intro h1 h2
    have habs : (linksOf e).abs = absDerived e := rfl
    rw [habs] at h2 ⊢
    have hpdf : (linksOf e).pdf = pdfDerived e := rfl
    rw [hpdf]
    have h3 : pdfDerived e = replaceFirst (absDerived e) "/abs/" "/pdf/" ++ ".pdf" := by
      unfold pdfDerived
      simp [h1, h2]
    refine ⟨h3, ?_, ?_⟩
    · rw [h3]; exact endsWithStr_append _ _
    · rw [h3]; exact append_pdf_ne_empty _

/-- Entry used to witness the link derivation: an id and nothing else. -/
def idOnlyEntry : XNode :=
  XNode.elem "entry" []
    [XNode.elem "id" [] [XNode.text "http://export.arxiv.org/api/2501.00001v1"]]

/-- Witness for C4 at an entry supplying only an id. -/
theorem linksOf_derivation_witness :
    (rawLinks idOnlyEntry).abs = "" ∧ entryId idOnlyEntry ≠ "" ∧
    (linksOf idOnlyEntry).abs = replaceFirst (entryId idOnlyEntry) "/api/" "/abs/" ∧
    (linksOf idOnlyEntry).pdf = replaceFirst (linksOf idOnlyEntry).abs "/abs/" "/pdf/" ++ ".pdf" ∧
    endsWithStr (linksOf idOnlyEntry).pdf ".pdf" = true ∧
    (linksOf idOnlyEntry).pdf ≠ "" := by
  refine ⟨by decide, by decide, ?_, ?_, ?_, ?_⟩
  · exact (linksOf_derivation idOnlyEntry).1 (by decide) (by decide)
  · exact ((linksOf_derivation idOnlyEntry).2 (by decide) (by decide)).1
  · exact ((linksOf_derivation idOnlyEntry).2 (by decide) (by decide)).2.1
  · exact ((linksOf_derivation idOnlyEntry).2 (by decide) (by decide)).2.2

/-! ## Cache map lemmas -/

theorem mapGet_mapSet_self (m : CacheMap) (k : String) (v : CacheEntry) :
    mapGet (mapSet m k v) k = some v := by
  induction m with
  | nil => simp [mapSet, mapGet]
  | cons p t ih =>
    obtain ⟨k2, v2⟩ := p
    by_cases h : k2 = k
    · simp [mapSet, mapGet, h]
    · simp [mapSet, mapGet, h, ih]

/-- No valid cache entry exists for the key of this filter at this
instant: every stored entry has aged past the threshold. -/
def cacheMissAt (p : QueryParams) (c : CacheMap) (now : Nat) : Prop :=
  ∀ entry, mapGet c (getCacheKey p) = some entry → isValidCache now entry = false

theorem fetchPapers_eq_network {dp : String → XDoc} {p : QueryParams}
    {c : CacheMap} {now : Nat} {ev : HttpEvent}
    (hmiss : cacheMissAt p c now) :
    fetchPapers dp p c now ev = fetchFromNetwork dp p c now ev (getCacheKey p) := by
  unfold fetchPapers
  cases hg : mapGet c (getCacheKey p) with
  | none => rfl
  | some entry => simp [hg, hmiss entry hg]

/-! ## Claim C7: non-success HTTP status -/

theorem fetchFromNetwork_http_error (dp : String → XDoc) (p : QueryParams)
    (c : CacheMap) (now : Nat) (status : Nat) (stext : String) (body : BodyOutcome)
    (key : String) (hbad : respOk status = false) :
    (fetchFromNetwork dp p c now (.response status stext body) key).outcome =
      .error ⟨"ArXiv API returned " ++ Nat.repr status ++ ": " ++ stext, none⟩ := by
  unfold fetchFromNetwork
  simp [hbad, normalizeError, httpStatusError]

/-- C7: an HTTP response with a non-success status makes fetchPapers
reject with the normalized error shape, and the message contains the
numeric status code and the reason phrase. -/
theorem fetchPapers_http_error (dp : String → XDoc) (p : QueryParams)
    (c : CacheMap) (now : Nat) (status : Nat) (stext : String) (body : BodyOutcome)
    (hmiss : cacheMissAt p c now) (hbad : respOk status = false) :
    (fetchPapers dp p c now (.response status stext body)).outcome =
      .error ⟨"ArXiv API returned " ++ Nat.repr status ++ ": " ++ stext, none⟩ ∧
    includesStr ("ArXiv API returned " ++ Nat.repr status ++ ": " ++ stext)
      (Nat.repr status) = true ∧
    includesStr ("ArXiv API returned " ++ Nat.repr status ++ ": " ++ stext) stext = true := by
  refine ⟨?_, ?_, ?_⟩
  · rw [fetchPapers_eq_network hmiss]
    exact fetchFromNetwork_http_error dp p c now status stext body _ hbad
  · rw [show ("ArXiv API returned " ++ Nat.repr status ++ ": " ++ stext) =
      "ArXiv API returned " ++ (Nat.repr status ++ (": " ++ stext)) from by
        simp [String.append_assoc]]
    exact includesStr_mid2 _ _ _
  · exact includesStr_end _ _

/-- Function standing in for DOMParser in concrete runs: every input
parses to the empty document. -/
def emptyDomParse : String → XDoc := fun _ => ⟨[]⟩

/-- Witness for C7: a 503 response on an empty cache. -/
theorem fetchPapers_http_error_witness :
    (fetchPapers emptyDomParse {} [] 0
        (.response 503 "Service Unavailable" (.ok ""))).outcome =
      .error ⟨"ArXiv API returned 503: Service Unavailable", none⟩ ∧
    includesStr "ArXiv API returned 503: Service Unavailable" "503" = true ∧
    includesStr "ArXiv API returned 503: Service Unavailable" "Service Unavailable" = true := by
  have h := fetchPapers_http_error emptyDomParse {} [] 0 503 "Service Unavailable" (.ok "")
    (fun entry hmem => by simp [mapGet] at hmem) (by decide)
  refine ⟨h.1.trans (congrArg Except.error (by decide)), ?_, ?_⟩
  · have h2 := h.2.1
    rwa [show Nat.repr 503 = "503" from rfl,
      show ("ArXiv API returned " ++ "503" ++ ": " ++ "Service Unavailable") =
        "ArXiv API returned 503: Service Unavailable" from rfl] at h2
  · have h3 := h.2.2
    rwa [show Nat.repr 503 = "503" from rfl,
      show ("ArXiv API returned " ++ "503" ++ ": " ++ "Service Unavailable") =
        "ArXiv API returned 503: Service Unavailable" from rfl] at h3

/-! ## Claim C8: errors leave the cache untouched -/

theorem fetchFromNetwork_error_cache {dp : String → XDoc} {p : QueryParams}
    {c : CacheMap} {now : Nat} {ev : HttpEvent} {key : String} {e : APIError}
    (h : (fetchFromNetwork dp p c now ev key).outcome = .error e) :
    (fetchFromNetwork dp p c now ev key).cache = c := by
  unfold fetchFromNetwork at h ⊢
  cases ev with
  | transportError t => rfl
  | response status stext body =>
    by_cases hok : respOk status = true
    · cases body with
      | threw t => simp [hok]
      | ok xml => simp [hok] at h
    · simp [Bool.not_eq_true] at hok
      simp [hok]

/-- C8: whenever fetchPapers fails, the cache after the call is exactly
the cache before the call; an entry is stored only on the successful
path. -/
theorem fetchPapers_error_cache (dp : String → XDoc) (p : QueryParams)
    (c : CacheMap) (now : Nat) (ev : HttpEvent) (e : APIError)
    (h : (fetchPapers dp p c now ev).outcome = .error e) :
    (fetchPapers dp p c now ev).cache = c := by
  unfold fetchPapers at h ⊢
  cases hg : mapGet c (getCacheKey p) with
  | none =>
    simp only [hg] at h ⊢
    exact fetchFromNetwork_error_cache h
  | some entry =>
    simp only [hg] at h ⊢
    by_cases hv : isValidCache now entry = true
    · simp [hv] at h
    · simp only [hv, if_false] at h ⊢
      exact fetchFromNetwork_error_cache h

/-- Witness for C8: a transport failure with a non-empty cache. -/
theorem fetchPapers_error_cache_witness :
    (fetchPapers emptyDomParse {} [("other-key", ⟨⟨[], 7⟩, 0⟩)] 9999999
        (.transportError ⟨false, "", none⟩)).outcome =
      .error ⟨"Network error occurred. Please check your connection and try again.", none⟩ ∧
    (fetchPapers emptyDomParse {} [("other-key", ⟨⟨[], 7⟩, 0⟩)] 9999999
        (.transportError ⟨false, "", none⟩)).cache = [("other-key", ⟨⟨[], 7⟩, 0⟩)] := by
  refine ⟨rfl, ?_⟩
  exact fetchPapers_error_cache emptyDomParse {} [("other-key", ⟨⟨[], 7⟩, 0⟩)] 9999999
    (.transportError ⟨false, "", none⟩) _ rfl

/-! ## Claim C10: rejected errors never carry a status -/

theorem fetchFromNetwork_error_status {dp : String → XDoc} {p : QueryParams}
    {c : CacheMap} {now : Nat} {ev : HttpEvent} {key : String} {e : APIError}
    (hb : evBenign ev)
    (h : (fetchFromNetwork dp p c now ev key).outcome = .error e) :
    e.status = none := by
  cases ev with
  | transportError t =>
    simp only [evBenign] at hb
    have h2 : (fetchFromNetwork dp p c now (.transportError t) key).outcome =
        .error (normalizeError t) := rfl
    rw [h2, Except.error.injEq] at h
    subst h
    cases hi : t.isError <;> simp [normalizeError, hi, hb]
  | response status stext body =>
    by_cases hok : respOk status = true
    · cases body with
      | threw t =>
        simp only [evBenign] at hb
        have h2 : (fetchFromNetwork dp p c now (.response status stext (.threw t)) key).outcome =
            .error (normalizeError t) := by
          unfold fetchFromNetwork
          simp [hok]
        rw [h2, Except.error.injEq] at h
        subst h
        cases hi : t.isError <;> simp [normalizeError, hi, hb]
      | ok xml =>
        have h2 : (fetchFromNetwork dp p c now (.response status stext (.ok xml)) key).outcome =
            .ok ⟨parseArxivFeed (dp xml),
              (extractTotalResults xml).getD (parseArxivFeed (dp xml)).length⟩ := by
          unfold fetchFromNetwork
          simp [hok]
        rw [h2] at h
        simp at h
    · have hbad : respOk status = false := by simpa [Bool.not_eq_true] using hok
      have h2 := fetchFromNetwork_http_error dp p c now status stext body key hbad
      rw [h2, Except.error.injEq] at h
      subst h
      rfl

/-- C10: under the platform guarantee that fetch and body-read
rejections carry no status property, every error fetchPapers rejects
with has an undefined status field; the status code is recoverable only
from the message text. -/
theorem fetchPapers_error_status_none (dp : String → XDoc) (p : QueryParams)
    (c : CacheMap) (now : Nat) (ev : HttpEvent) (e : APIError)
    (hb : evBenign ev)
    (h : (fetchPapers dp p c now ev).outcome = .error e) :
    e.status = none := by
  unfold fetchPapers at h
  cases hg : mapGet c (getCacheKey p) with
  | none =>
    simp only [hg] at h
    exact fetchFromNetwork_error_status hb h
  | some entry =>
    simp only [hg] at h
    by_cases hv : isValidCache now entry = true
    · simp [hv] at h
    · simp only [hv, if_false] at h
      exact fetchFromNetwork_error_status hb h

/-- Witness for C10: a 503 rejection has no status field. -/
theorem fetchPapers_error_status_none_witness :
    (fetchPapers emptyDomParse {} [] 0 (.response 503 "Service Unavailable" (.ok ""))).outcome =
      .error ⟨"ArXiv API returned 503: Service Unavailable", none⟩ ∧
    (⟨"ArXiv API returned 503: Service Unavailable", none⟩ : APIError).status = none := by
  refine ⟨rfl, ?_⟩
  exact fetchPapers_error_status_none emptyDomParse {} [] 0
    (.response 503 "Service Unavailable" (.ok "")) _ trivial rfl

/-! ## Claim C2: cache hit below the threshold, refetch after it -/

theorem fetchFromNetwork_requested (dp : String → XDoc) (p : QueryParams)
    (c : CacheMap) (now : Nat) (ev : HttpEvent) (key : String) :
    (fetchFromNetwork dp p c now ev key).requested = some (buildArxivQuery p) := by
  unfold fetchFromNetwork
  cases ev with
  | transportError t => rfl
  | response status stext body =>
    by_cases hok : respOk status = true
    · cases body with
      | threw t => simp [hok]
      | ok xml => simp [hok]
    · have hbad : respOk status = false := by simpa [Bool.not_eq_true] using hok
      simp [hbad]

theorem fetchFromNetwork_success_stores {dp : String → XDoc} {p : QueryParams}
    {c : CacheMap} {now : Nat} {ev : HttpEvent} {key : String} {r : PapersResponse}
    (hok : (fetchFromNetwork dp p c now ev key).outcome = .ok r) :
    (fetchFromNetwork dp p c now ev key).cache = mapSet c key ⟨r, now⟩ := by
  unfold fetchFromNetwork at hok ⊢
  cases ev with
  | transportError t => simp at hok
  | response status stext body =>
    by_cases hk : respOk status = true
    · cases body with
      | threw t => simp [hk] at hok
      | ok xml =>
        simp only [hk, Bool.not_true, Bool.false_eq_true, if_false, Except.ok.injEq] at hok ⊢
        rw [hok]
    · have hbad : respOk status = false := by simpa [Bool.not_eq_true] using hk
      simp [hbad] at hok

theorem fetchPapers_success_stores (dp : String → XDoc) (p : QueryParams)
    (c : CacheMap) (t : Nat) (ev : HttpEvent) (r : PapersResponse)
    (hok : (fetchPapers dp p c t ev).outcome = .ok r)
    (hnet : (fetchPapers dp p c t ev).requested.isSome = true) :
    (fetchPapers dp p c t ev).cache = mapSet c (getCacheKey p) ⟨r, t⟩ := by
  unfold fetchPapers at hok hnet ⊢
  cases hg : mapGet c (getCacheKey p) with
  | none =>
    simp only [hg] at hok hnet ⊢
    exact fetchFromNetwork_success_stores hok
  | some entry =>
    simp only [hg] at hok hnet ⊢
    by_cases hv : isValidCache t entry = true
    · simp [hv] at hnet
    · simp only [hv, if_false] at hok hnet ⊢
      exact fetchFromNetwork_success_stores hok

/-- C2: after a fetchPapers call that succeeded over the network at time
t, a later call with the identical filter whose elapsed time is below
the 10-minute threshold returns the stored data, leaves the cache
unchanged and issues no network request, and a call at or past the
threshold issues a new network request to the built query URL. -/
theorem fetchPapers_cache_ttl (dp dp2 : String → XDoc) (p : QueryParams)
    (c : CacheMap) (t t2 : Nat) (ev ev2 : HttpEvent) (r : PapersResponse)
    (hok : (fetchPapers dp p c t ev).outcome = .ok r)
    (hnet : (fetchPapers dp p c t ev).requested.isSome = true)
    (hle : t ≤ t2) :
    (t2 - t < CACHE_DURATION →
      (fetchPapers dp2 p ((fetchPapers dp p c t ev).cache) t2 ev2).outcome = .ok r ∧
      (fetchPapers dp2 p ((fetchPapers dp p c t ev).cache) t2 ev2).cache =
        (fetchPapers dp p c t ev).cache ∧
      (fetchPapers dp2 p ((fetchPapers dp p c t ev).cache) t2 ev2).requested = none) ∧
    (CACHE_DURATION ≤ t2 - t →
      (fetchPapers dp2 p ((fetchPapers dp p c t ev).cache) t2 ev2).requested =
        some (buildArxivQuery p)) := by
  have hstore := fetchPapers_success_stores dp p c t ev r hok hnet
  rw [hstore]
  have hget := mapGet_mapSet_self c (getCacheKey p) ⟨r, t⟩
  constructor
  · intro hlt
    have hvalid : isValidCache t2 ⟨r, t⟩ = true := decide_eq_true hlt
    refine ⟨?_, ?_, ?_⟩ <;> simp [fetchPapers, hget, hvalid]
  · intro hge
    have hvalid : isValidCache t2 ⟨r, t⟩ = false := by
      unfold isValidCache
      simp only [decide_eq_false_iff_not]
      omega
    simp [fetchPapers, hget, hvalid, fetchFromNetwork_requested]

/-- Witness for C2: a successful fetch at time 0, a cache hit at time 1,
and a refetch once the 10-minute threshold has elapsed. -/
theorem fetchPapers_cache_ttl_witness :
    (fetchPapers emptyDomParse {} [] 0 (.response 200 "OK" (.ok ""))).outcome =
      .ok ⟨[], 0⟩ ∧
    (fetchPapers emptyDomParse {}
        ((fetchPapers emptyDomParse {} [] 0 (.response 200 "OK" (.ok ""))).cache) 1
        (.response 200 "OK" (.ok ""))).outcome = .ok ⟨[], 0⟩ ∧
    (fetchPapers emptyDomParse {}
        ((fetchPapers emptyDomParse {} [] 0 (.response 200 "OK" (.ok ""))).cache) 1
        (.response 200 "OK" (.ok ""))).requested = none ∧
    (fetchPapers emptyDomParse {}
        ((fetchPapers emptyDomParse {} [] 0 (.response 200 "OK" (.ok ""))).cache) 600000
        (.response 200 "OK" (.ok ""))).requested = some (buildArxivQuery {}) := by
  have h1 := fetchPapers_cache_ttl emptyDomParse emptyDomParse {} [] 0 1
    (.response 200 "OK" (.ok "")) (.response 200 "OK" (.ok "")) ⟨[], 0⟩ rfl rfl (by decide)
  have h2 := fetchPapers_cache_ttl emptyDomParse emptyDomParse {} [] 0 600000
    (.response 200 "OK" (.ok "")) (.response 200 "OK" (.ok "")) ⟨[], 0⟩ rfl rfl (by decide)
  exact ⟨rfl, (h1.1 (by decide)).1, (h1.1 (by decide)).2.2, h2.2 (by decide)⟩

end Arxiv
